import Mathlib

/-!
Shallow embedding of the SolProof analysis pipeline (a JavaScript program that
produces a risk/behavior profile for an on-chain program) together with proofs
of the specification claims about it.

Conventions of the embedding:
* JS numbers that carry fractional values (SOL volumes, fees, thresholds such
  as `0.5`, `0.8`, `0.1`) are modelled as rationals.
* Integer-valued scores (safety score, risk likelihood) are modelled as
  integers; `Math.min` / `Math.max` become `min` / `max`.
* A JS parameter that the function explicitly validates for presence
  (`!x?.field`) is modelled as an `Option`; the `catch` fallback of each
  function is the `none` branch.
* Byte buffers are lists of byte values (`List Nat`); `Buffer.includes`
  becomes a contiguous-subsequence search.
-/

namespace SolProof

/-! ## Data model -/

/-- Control-flow estimate of the binary profiler (`controlFlow` in
`analyzer.js`).  The fields are produced with `Math.floor`, hence `Int`. -/
structure ControlFlow where
  branches : Int
  loops : Int
deriving DecidableEq, Repr

/-- The `insights` object produced by `analyzeBinary` (`src/src/lib/analyzer.js`). -/
structure Insights where
  instructions : Nat
  syscalls : List String
  suspectedType : String
  reentrancyRisk : String
  controlFlow : ControlFlow
  usesBorsh : Bool
  hiddenMint : Bool
  authorityHolders : List String
  address : String
deriving DecidableEq, Repr

/-- The value returned by `analyzeBinary`: a wrapper holding `insights`. -/
structure Analysis where
  insights : Insights
deriving DecidableEq, Repr

/-- One per-type entry of `economicInsights.transactionTypes`. -/
structure TypeStat where
  count : Nat
  volumeSOL : Rat
deriving DecidableEq, Repr

/-- The `transactionTypes` record of `economicInsights` (`transactions.js`). -/
structure TransactionTypes where
  swaps : TypeStat
  transfers : TypeStat
  mints : TypeStat
  burns : TypeStat
  governance : TypeStat
  nftMints : TypeStat
  others : TypeStat
deriving DecidableEq, Repr

/-- One aggregated token-flow entry (`analyzeTokenFlows` in `transactions.js`).
`token` duplicates `mint` exactly as the JS object literal does; a JS
`undefined` mint is `none`. -/
structure Flow where
  account : String
  amount : Rat
  token : Option String
  mint : Option String
  flowType : String
  txCount : Nat
deriving DecidableEq, Repr

/-- `tokenFlowInsights` as returned by `analyzeTokenFlows`. -/
structure FlowInsights where
  topOutflows : List Flow
  topInflows : List Flow
  concentrationRisk : Bool
deriving DecidableEq, Repr

/-- `transactionVolumeAnalysis` of `economicInsights`. -/
structure VolumeAnalysis where
  meanVolumeSOL : Rat
  stdDevVolumeSOL : Rat
  highVolatility : Bool
deriving DecidableEq, Repr

/-- The `economicInsights` record computed by `getRecentTransactions`
(`src/src/lib/transactions.js`). -/
structure EconomicInsights where
  totalVolumeSOL : Rat
  averageFeeSOL : Rat
  transactionCount : Nat
  transactionTypes : TransactionTypes
  suspiciousVolume : Rat
  tokenFlowInsights : FlowInsights
  transactionVolumeAnalysis : VolumeAnalysis
deriving DecidableEq, Repr

/-- A parsed instruction's `parsed.info` sub-object.  Only the fields the
pipeline reads are modelled; a field a concrete JS object lacks is `none`. -/
structure ParsedInfo where
  source : Option String
  destination : Option String
  amount : Rat
  mint : Option String
  mintAuthority : Option String
deriving DecidableEq, Repr

/-- An instruction's `parsed` sub-object (`{type, info}`). -/
structure Parsed where
  ptype : String
  info : ParsedInfo
deriving DecidableEq, Repr

/-- One transaction instruction.  `programId` is held in its base58 string
form (JS code always compares `ix.programId.toBase58()` against string
literals); `accounts` likewise.  A missing `parsed` object is `none`; a
missing `accounts` array is modelled by `[]` (both fail the `length >= 2`
guards identically). -/
structure Instruction where
  programId : String
  accounts : List String
  parsed : Option Parsed
deriving DecidableEq, Repr

/-- One element of the `transactions` array built by `getRecentTransactions`.
`txType` is the JS `type` field (the classified transaction kind),
`volumeSOL` is `tx.meta.volumeSOL`, and `details` records whether the
`tx.details` parsed-transaction object is present (the flow analysis skips
transactions where it is missing). -/
structure Tx where
  txType : String
  instructions : List Instruction
  volumeSOL : Rat
  details : Bool
deriving DecidableEq, Repr

/-- The result object of `getRecentTransactions`: the transaction list plus
the derived `economicInsights`. -/
structure TxData where
  transactions : List Tx
  economicInsights : EconomicInsights
deriving DecidableEq, Repr

/-- One itemized risk entry of the safety assessment. -/
structure Risk where
  issue : String
  implication : String
  mitigation : String
deriving DecidableEq, Repr

/-- The value returned by `assessSafety`. -/
structure SafetyAssessment where
  safetyScore : Int
  risks : List Risk
deriving DecidableEq, Repr

/-- One authority-holder insight.  The functions under verification use only
the length of the authority list, so a single representative field suffices. -/
structure AuthorityInsight where
  authority : String
deriving DecidableEq, Repr

/-- One call-graph edge.  `src`/`dst` embed the JS fields `from`/`to`. -/
structure CallEdge where
  src : String
  dst : String
  action : String
  count : Nat
deriving DecidableEq, Repr

/-- The call graph returned by `reconstructCallGraph`. -/
structure CallGraph where
  nodes : List String
  edges : List CallEdge
deriving DecidableEq, Repr

/-- One risk factor of the risk prediction. -/
structure RiskFactor where
  issue : String
  details : String
deriving DecidableEq, Repr

/-- The value returned by `predictRisk` (`src/src/lib/updateAnalyzer.js`). -/
structure RiskPrediction where
  riskLikelihood : Int
  prediction : String
  riskFactors : List RiskFactor
deriving DecidableEq, Repr

/-! ## Binary profiler (`src/src/lib/analyzer.js`) -/

/-- `isPrefixSeq n h` : the byte list `n` is an initial segment of `h`. -/
def isPrefixSeq : List Nat → List Nat → Bool
  | [], _ => true
  | _ :: _, [] => false
  | a :: as, b :: bs => a == b && isPrefixSeq as bs

/-- `containsSeq n h` : the byte list `n` occurs contiguously inside `h` —
the embedding of `Buffer.prototype.includes` on byte patterns. -/
def containsSeq (needle : List Nat) : List Nat → Bool
  | [] => needle.isEmpty
  | b :: bs => isPrefixSeq needle (b :: bs) || containsSeq needle bs

/-- ASCII bytes of the marker string `"swap"`. -/
def swapBytes : List Nat := [115, 119, 97, 112]

/-- ASCII bytes of the marker string `"mintNFT"`. -/
def mintNFTBytes : List Nat := [109, 105, 110, 116, 78, 70, 84]

/-- ASCII bytes of the marker string `"borsh"`. -/
def borshBytes : List Nat := [98, 111, 114, 115, 104]

/-- ASCII bytes of the marker string `"mint"`. -/
def mintBytes : List Nat := [109, 105, 110, 116]

/-- Byte signature of the `sol_invoke` syscall in `detectSyscalls`. -/
def sigInvoke : List Nat := [1, 0, 0]

/-- Byte signature of the `sol_verify_signature` syscall. -/
def sigVerify : List Nat := [2, 0, 0]

/-- Byte signature of the `sol_alloc_free` syscall. -/
def sigAlloc : List Nat := [3, 0, 0]

/-- The well-known governance program address hard-coded in
`inferProgramType` and `inferTransactionType`. -/
def govProgram : String := "GovER5Lthms3bLBqWub97yVrMmEogzX7xNjdXpPPCVZw"

/-- Embedding of `detectSyscalls` (`analyzer.js`, lines 59-70): presence test
of the three fixed 3-byte signatures, collected in object order. -/
def detectSyscalls (binary : List Nat) : List String :=
  (if containsSeq sigInvoke binary then ["sol_invoke"] else []) ++
  (if containsSeq sigVerify binary then ["sol_verify_signature"] else []) ++
  (if containsSeq sigAlloc binary then ["sol_alloc_free"] else [])

/-- Embedding of `inferProgramType` (`analyzer.js`, lines 78-83). -/
def inferProgramType (address : String) (binary : List Nat) : String :=
  if address == govProgram then "governance"
  else if containsSeq swapBytes binary then "amm"
  else if containsSeq mintNFTBytes binary then "nft"
  else "unknown"

/-- Embedding of `analyzeBinary` (`analyzer.js`, lines 10-52).  For a byte
buffer input none of the statements of the `try` block can throw, so the
catch-fallback profile is unreachable and not modelled. -/
def analyzeBinary (binary : List Nat) (address : String) : Analysis :=
  let binarySize := binary.length
  let instructionCount := binarySize / 8
  let syscalls := detectSyscalls binary
  let suspectedType := inferProgramType address binary
  let controlFlow : ControlFlow :=
    { branches := Int.floor ((instructionCount : Rat) * (1 / 10)),
      loops := Int.floor ((instructionCount : Rat) * (5 / 100)) }
  let usesBorsh := containsSeq borshBytes binary
  let hiddenMint := containsSeq mintBytes binary
  { insights :=
      { instructions := instructionCount,
        syscalls := syscalls,
        suspectedType := suspectedType,
        reentrancyRisk := if instructionCount > 1000 then "Moderate" else "Low",
        controlFlow := controlFlow,
        usesBorsh := usesBorsh,
        hiddenMint := hiddenMint,
        authorityHolders := ["8x7y...z9k2"],
        address := address } }

/-! ## Safety assessor (`src/src/lib/safetyAssessor.js`) -/

/-- The risk entry pushed by the hidden-mint rule of `assessSafety`. -/
def riskUncheckedMinting : Risk :=
  { issue := "Potential unchecked minting",
    implication := "Risk of unauthorized token issuance",
    mitigation := "Verify minting constraints" }

/-- The risk entry pushed by the single-authority rule of `assessSafety`. -/
def riskSingleAuthority : Risk :=
  { issue := "Single authority",
    implication := "Centralization risk",
    mitigation := "Monitor authority actions" }

/-- The risk entry pushed by the suspicious-volume rule of `assessSafety`. -/
def riskSuspiciousVolume : Risk :=
  { issue := "High suspicious volume",
    implication := "Potential laundering",
    mitigation := "Trace top accounts" }

/-- The risk entry pushed by the complex-interactions rule of `assessSafety`. -/
def riskComplexInteractions : Risk :=
  { issue := "Complex interactions",
    implication := "Increased risk of hidden logic",
    mitigation := "Review call graph" }

/-- Embedding of `assessSafety` (`src/src/lib/safetyAssessor.js`, lines
12-64).  The sequential score decrements and `risks.push` calls of the JS
body are reproduced one step at a time; the validation failure
(`!analysis?.insights || !transactions?.economicInsights`) is the `none`
branch, which like the JS `catch` returns `{safetyScore: 50, risks: []}`. -/
def assessSafety (analysis : Option Analysis) (authorityInsights : List AuthorityInsight)
    (transactions : Option TxData) (callGraph : CallGraph) : SafetyAssessment :=
  match analysis, transactions with
  | some a, some t =>
    let econ := t.economicInsights
    let risks0 : List Risk := []
    let score0 : Int := 80
    let risks1 := if a.insights.hiddenMint then risks0 ++ [riskUncheckedMinting] else risks0
    let score1 := if a.insights.hiddenMint then score0 - 20 else score0
    let risks2 := if authorityInsights.length = 1 then risks1 ++ [riskSingleAuthority] else risks1
    let score2 := if authorityInsights.length = 1 then score1 - 10 else score1
    let risks3 :=
      if econ.suspiciousVolume > econ.totalVolumeSOL * (5 / 10) then
        risks2 ++ [riskSuspiciousVolume]
      else risks2
    let score3 :=
      if econ.suspiciousVolume > econ.totalVolumeSOL * (5 / 10) then score2 - 15 else score2
    let risks4 := if callGraph.edges.length > 50 then risks3 ++ [riskComplexInteractions] else risks3
    let score4 := if callGraph.edges.length > 50 then score3 - 10 else score3
    { safetyScore := max 0 (min 100 score4), risks := risks4 }
  | _, _ => { safetyScore := 50, risks := [] }

/-! ## Behavior inferer (`src/unnamed/part_007`, `inferBehavior`) -/

/-- The value returned by `inferBehavior`.  `programTypeConfidence` is the JS
object literal rendered as an ordered key/value list. -/
structure BehaviorInference where
  scamProbability : Int
  launderingLikelihood : Int
  programTypeConfidence : List (String × Int)
deriving DecidableEq, Repr

/-- Embedding of `inferBehavior` (`src/unnamed/part_007`, lines 11-58).  The
sequential `+=` accumulations of the JS body are reproduced step by step; the
validation failure is the `none` branch, which like the JS `catch` returns
the `{10, 10, {unknown: 100}}` fallback. -/
def inferBehavior (analysis : Option Analysis) (transactionData : Option TxData) :
    BehaviorInference :=
  match analysis, transactionData with
  | some a, some t =>
    let insights := a.insights
    let econ := t.economicInsights
    let scam0 : Int := 10
    let scam1 := if insights.hiddenMint then scam0 + 30 else scam0
    let scam2 :=
      if econ.suspiciousVolume > econ.totalVolumeSOL * (5 / 10) then scam1 + 20 else scam1
    let scam3 :=
      if econ.transactionCount < 10 ∧ econ.totalVolumeSOL > 100 then scam2 + 20 else scam2
    let scam4 := if insights.authorityHolders.length = 1 then scam3 + 10 else scam3
    let laund0 : Int := 10
    let laund1 := if econ.tokenFlowInsights.concentrationRisk then laund0 + 25 else laund0
    let laund2 :=
      if econ.transactionVolumeAnalysis.highVolatility then laund1 + 20 else laund1
    let laund3 :=
      if (econ.transactionTypes.others.count : Rat) > (econ.transactionCount : Rat) * (3 / 10) then
        laund2 + 15
      else laund2
    let laund4 :=
      if "sol_invoke" ∈ insights.syscalls ∧ insights.instructions > 500 then laund3 + 10
      else laund3
    let programTypeConfidence :=
      if insights.suspectedType == "governance" then
        [("governance", (90 : Int)), ("amm", 5), ("nft", 5)]
      else if (econ.transactionTypes.swaps.count : Rat) > (econ.transactionCount : Rat) * (5 / 10) then
        [("amm", 85), ("governance", 10), ("nft", 5)]
      else if (econ.transactionTypes.nftMints.count : Rat) > (econ.transactionCount : Rat) * (3 / 10) then
        [("nft", 80), ("amm", 10), ("governance", 10)]
      else
        [("unknown", 50), ("governance", 20), ("amm", 20), ("nft", 10)]
    { scamProbability := min 100 scam4,
      launderingLikelihood := min 100 laund4,
      programTypeConfidence := programTypeConfidence }
  | _, _ =>
    { scamProbability := 10,
      launderingLikelihood := 10,
      programTypeConfidence := [("unknown", 100)] }

/-- Sum of the values of a `programTypeConfidence` key/value list. -/
def sumConfidence (l : List (String × Int)) : Int :=
  l.foldl (fun s p => s + p.2) 0

/-! ## Risk predictor (`src/src/lib/updateAnalyzer.js`, `predictRisk`) -/

/-- Embedding of `predictRisk` (`src/src/lib/updateAnalyzer.js`, lines
44-89): base likelihood 30, fixed increments, `Math.min(100, ·)`, and the
two-branch verbal prediction.  The validation failure is the `none` branch,
which like the JS `catch` returns the `{30, "Low risk", []}` fallback.  (The
repository also carries `src/src/lib/predictRisk.js`, an alternate historical
variant with base 50; the pipeline claims are about this one.) -/
def predictRisk (authorityInsights : Option (List AuthorityInsight))
    (transactionData : Option TxData) (safetyAssessment : Option SafetyAssessment) :
    RiskPrediction :=
  match authorityInsights, transactionData, safetyAssessment with
  | some ai, some t, some sa =>
    let rl0 : Int := 30
    let f0 : List RiskFactor := []
    let rl1 :=
      if t.economicInsights.transactionVolumeAnalysis.highVolatility then rl0 + 20 else rl0
    let f1 :=
      if t.economicInsights.transactionVolumeAnalysis.highVolatility then
        f0 ++ [{ issue := "High transaction volume volatility",
                 details := "May indicate manipulative activity" }]
      else f0
    let rl2 := if ai.length = 1 then rl1 + 15 else rl1
    let f2 :=
      if ai.length = 1 then
        f1 ++ [{ issue := "Single authority",
                 details := "Increases risk of malicious upgrades" }]
      else f1
    let rl3 := if sa.safetyScore < 50 then rl2 + 25 else rl2
    let f3 :=
      if sa.safetyScore < 50 then
        f2 ++ [{ issue := "Low safety score",
                 details := "Indicates multiple vulnerabilities" }]
      else f2
    { riskLikelihood := min 100 rl3,
      prediction := if rl3 > 70 then "High risk" else "Low to moderate risk",
      riskFactors := f3 }
  | _, _, _ =>
    { riskLikelihood := 30, prediction := "Low risk", riskFactors := [] }

/-! ## Transaction classifier (`src/src/lib/transactions.js`) -/

/-- The SPL fungible token program id checked by `inferTransactionType`. -/
def tokenProgram : String := "TokenkegQfeZyiNwAJbNbGKPFXCWuBvf9Ss623VQ5DA"

/-- The SPL governance helper program id checked by `inferTransactionType`. -/
def smplProgram : String := "SMPLecHpvtyTWca6gwQLoCFN33w41rmatZTxM4W3fS7"

/-- The Raydium swap-venue program id checked by `inferTransactionType`. -/
def raydiumProgram : String := "675kPX9MHTjS2zt1qfr1NYHuzeLXfQM9H24wFSUt1Mp8"

/-- The Pump.fun swap-venue program id checked by `inferTransactionType`. -/
def pumpFunProgram : String := "pAMMBay6oceH9fJKBRHGP5D4bD4sWpmSwMn52FMfXEA"

/-- The Metaplex NFT program id checked by `inferTransactionType`. -/
def metaplexProgram : String := "metaqbxxUerdq28cj1RbAWkYQm3ybzjb6a8bt518x1s"

/-- `ix.parsed?.type === s` : true when the instruction has a `parsed` object
whose `type` equals `s`. -/
def parsedTypeIs (ix : Instruction) (s : String) : Bool :=
  match ix.parsed with
  | some p => p.ptype == s
  | none => false

/-- Embedding of `inferTransactionType` (`transactions.js`, lines 217-257).
The argument is the instruction list of the parsed transaction (`none` when
`parsedTx` is null).  The token branch reproduces the JS fall-through: when a
token-program instruction is present but the first such instruction's parsed
type is none of transfer/mint/burn, no value is returned and evaluation
continues with the swap check. -/
def inferTransactionType (parsedTx : Option (List Instruction)) (programAddress : String) :
    String :=
  match parsedTx with
  | none => "unknown"
  | some instructions =>
    if instructions.any (fun ix =>
        ix.programId == govProgram || ix.programId == smplProgram ||
        parsedTypeIs ix "createProposal" || parsedTypeIs ix "vote") then
      "governance"
    else
      let tokenResult : Option String :=
        if instructions.any (fun ix => ix.programId == tokenProgram) then
          match instructions.find? (fun ix => ix.programId == tokenProgram) with
          | some tokenIx =>
            if parsedTypeIs tokenIx "transfer" then some "transfer"
            else if parsedTypeIs tokenIx "mint" then some "mint"
            else if parsedTypeIs tokenIx "burn" then some "burn"
            else none
          | none => none
        else none
      match tokenResult with
      | some t => t
      | none =>
        if instructions.any (fun ix =>
            ix.programId == raydiumProgram || ix.programId == pumpFunProgram ||
            ix.programId == programAddress) then
          "swap"
        else if instructions.any (fun ix =>
            ix.programId == metaplexProgram || parsedTypeIs ix "mintNFT") then
          "nft_mint"
        else if instructions.any (fun ix => ix.programId == programAddress) then
          "custom"
        else "unknown"

/-! ## Token-flow analysis (`analyzeTokenFlows` in `transactions.js`) -/

/-- JS truthiness of an optional string: absent and empty strings are falsy. -/
def jsTruthy : Option String → Bool
  | some s => !(s == "")
  | none => false

/-- JS `o || d` for an optional string `o` and default `d`. -/
def jsOrStr (o : Option String) (d : String) : String :=
  match o with
  | some s => if s == "" then d else s
  | none => d

/-- The source/destination/amount/mint/flowType tuple assigned by the branch
chain of the flow loop in `analyzeTokenFlows`, before the
`flowType && source && destination` guard. -/
structure RawFlow where
  source : Option String
  destination : Option String
  amount : Rat
  mint : Option String
  flowType : String
deriving DecidableEq, Repr

/-- The per-instruction branch chain of `analyzeTokenFlows`
(`transactions.js`, lines 274-299): token transfer, swap/custom, governance
vote, NFT mint, in that order; `none` when no branch applies.  JS `||`
defaulting (`tx.meta?.volumeSOL || 1`, `ix.parsed?.info?.mint || 'SOL'`,
`mintAuthority || ix.accounts[0]`) is modelled with its falsy-on-zero and
falsy-on-empty-string semantics. -/
def extractFlow (address : String) (tx : Tx) (ix : Instruction) : Option RawFlow :=
  if ix.programId == tokenProgram && parsedTypeIs ix "transfer" then
    match ix.parsed with
    | some p =>
      some { source := p.info.source, destination := p.info.destination,
             amount := p.info.amount, mint := p.info.mint, flowType := "transfer" }
    | none => none
  else if (tx.txType == "swap" || tx.txType == "custom") && decide (2 ≤ ix.accounts.length) then
    some { source := some (ix.accounts.getD 0 ""),
           destination := some (ix.accounts.getD 1 ""),
           amount := if tx.volumeSOL == 0 then 1 else tx.volumeSOL,
           mint := some (jsOrStr (ix.parsed.bind (fun p => p.info.mint)) "SOL"),
           flowType := "swap" }
  else if tx.txType == "governance" && decide (1 ≤ ix.accounts.length) then
    some { source := some (ix.accounts.getD 0 ""), destination := some address,
           amount := 1, mint := some "GOVERNANCE", flowType := "vote" }
  else if tx.txType == "nft_mint" && jsTruthy (ix.parsed.bind (fun p => p.info.mint)) then
    some { source := some address,
           destination :=
             (if jsTruthy (ix.parsed.bind (fun p => p.info.mintAuthority)) then
               ix.parsed.bind (fun p => p.info.mintAuthority)
             else ix.accounts.get? 0),
           amount := 1, mint := ix.parsed.bind (fun p => p.info.mint),
           flowType := "nft_mint" }
  else none

/-- Embedding of `getTokenDecimals` (`transactions.js`, lines 337-341) with
the external metadata fetch abstracted by `decimalsOf`; an absent mint flows
through `getTokenMetadata`'s `!mint` guard and yields the default 9. -/
def getTokenDecimalsM (decimalsOf : String → Nat) : Option String → Nat
  | none => 9
  | some m => if m == "SOL" || m == "GOVERNANCE" then 9 else decimalsOf m

/-- The `parsedAmount` expression of `analyzeTokenFlows` (line 302). -/
def parsedAmount (decimalsOf : String → Nat) (mint : Option String) (amount : Rat) : Rat :=
  if mint == some "SOL" || mint == some "GOVERNANCE" then amount
  else amount / (10 : Rat) ^ getTokenDecimalsM decimalsOf mint

/-- The outflow entry pushed when `source === address` (line 304). -/
def mkOutflow (decimalsOf : String → Nat) (rf : RawFlow) : Flow :=
  { account := rf.destination.getD "",
    amount := parsedAmount decimalsOf rf.mint rf.amount,
    token := rf.mint, mint := rf.mint, flowType := rf.flowType, txCount := 1 }

/-- The inflow entry pushed when `destination === address` (line 306). -/
def mkInflow (decimalsOf : String → Nat) (rf : RawFlow) : Flow :=
  { account := rf.source.getD "",
    amount := parsedAmount decimalsOf rf.mint rf.amount,
    token := rf.mint, mint := rf.mint, flowType := rf.flowType, txCount := 1 }

/-- All outflow entries collected by the flow loop of `analyzeTokenFlows`, in
push order.  The JS loop fills the `outflows` and `inflows` arrays in a
single pass; since each entry goes to exactly one of the two arrays, the two
arrays are collected by two comprehensions over the same traversal. -/
def outflowsOf (decimalsOf : String → Nat) (address : String) (transactions : List Tx) :
    List Flow :=
  transactions.flatMap (fun tx =>
    if tx.details then
      tx.instructions.filterMap (fun ix =>
        match extractFlow address tx ix with
        | some rf =>
          if jsTruthy rf.source && jsTruthy rf.destination then
            if rf.source == some address then some (mkOutflow decimalsOf rf) else none
          else none
        | none => none)
    else [])

/-- All inflow entries collected by the flow loop of `analyzeTokenFlows`, in
push order (`else if destination === address`). -/
def inflowsOf (decimalsOf : String → Nat) (address : String) (transactions : List Tx) :
    List Flow :=
  transactions.flatMap (fun tx =>
    if tx.details then
      tx.instructions.filterMap (fun ix =>
        match extractFlow address tx ix with
        | some rf =>
          if jsTruthy rf.source && jsTruthy rf.destination then
            if rf.source == some address then none
            else if rf.destination == some address then some (mkInflow decimalsOf rf)
            else none
          else none
        | none => none)
    else [])

/-- The grouping key of `aggregateFlows`: the JS template literal
`account_mint_flowType`, where a JS `undefined` mint prints as
`"undefined"`. -/
def flowKey (f : Flow) : String :=
  f.account ++ "_" ++ (match f.mint with | some m => m | none => "undefined") ++ "_" ++ f.flowType

/-- One step of the `reduce` inside `aggregateFlows` (`transactions.js`,
lines 314-320): a flow with a known key adds its amount to that group and
bumps its count; otherwise a fresh group is appended (insertion order is the
JS object-key order). -/
def insertFlowGroup (acc : List Flow) (f : Flow) : List Flow :=
  if acc.any (fun g => flowKey g == flowKey f) then
    acc.map (fun g =>
      if flowKey g == flowKey f then
        { g with amount := g.amount + f.amount, txCount := g.txCount + 1 }
      else g)
  else acc ++ [{ f with txCount := 1 }]

/-- The grouping `reduce` of `aggregateFlows`: groups in first-occurrence
order, amounts summed, counts accumulated. -/
def groupFlows (flows : List Flow) : List Flow :=
  flows.foldl insertFlowGroup []

/-- Stable descending insertion by amount: the new element goes after every
element of amount `≥` its own, matching the stable JS
`sort((a, b) => b.amount - a.amount)`. -/
def insSorted (f : Flow) : List Flow → List Flow
  | [] => [f]
  | g :: gs => if f.amount ≤ g.amount then g :: insSorted f gs else f :: g :: gs

/-- Stable descending sort by amount (the result JS's stable `Array.sort`
produces with comparator `b.amount - a.amount`). -/
def sortFlowsDesc (flows : List Flow) : List Flow :=
  flows.foldl (fun acc f => insSorted f acc) []

/-- `aggregateFlows` (`transactions.js`, lines 312-321): group, then sort by
amount descending. -/
def aggregateFlows (flows : List Flow) : List Flow :=
  sortFlowsDesc (groupFlows flows)

/-- `flows.reduce((sum, f) => sum + f.amount, 0)`. -/
def sumAmounts (flows : List Flow) : Rat :=
  flows.foldl (fun s f => s + f.amount) 0

/-- Embedding of `analyzeTokenFlows` (`transactions.js`, lines 265-330).
`decimalsOf` abstracts the external token-metadata lookup used for decimal
scaling of non-SOL mints. -/
def analyzeTokenFlows (decimalsOf : String → Nat) (transactions : List Tx) (address : String) :
    FlowInsights :=
  let topOutflows := (aggregateFlows (outflowsOf decimalsOf address transactions)).take 5
  let topInflows := (aggregateFlows (inflowsOf decimalsOf address transactions)).take 5
  let concentrationRisk :=
    match topOutflows with
    | [] => false
    | h :: _ => decide (h.amount > (8 : Rat) / 10 * sumAmounts topOutflows)
  { topOutflows := topOutflows, topInflows := topInflows,
    concentrationRisk := concentrationRisk }

/-! ## Fetch with retry (`getRecentTransactions` in `transactions.js`) -/

/-- The fixed backoff schedule of `getRecentTransactions` (milliseconds). -/
def retryDelays : List Nat := [1000, 2000, 4000, 8000, 16000]

/-- Embedding of `createFallback` (`transactions.js`, lines 126-147): the
neutral empty result returned when every fetch attempt has failed. -/
def createFallback : TxData :=
  { transactions := [],
    economicInsights :=
      { totalVolumeSOL := 0,
        averageFeeSOL := 0,
        transactionCount := 0,
        transactionTypes :=
          { swaps := { count := 0, volumeSOL := 0 },
            transfers := { count := 0, volumeSOL := 0 },
            mints := { count := 0, volumeSOL := 0 },
            burns := { count := 0, volumeSOL := 0 },
            governance := { count := 0, volumeSOL := 0 },
            nftMints := { count := 0, volumeSOL := 0 },
            others := { count := 0, volumeSOL := 0 } },
        suspiciousVolume := 0,
        tokenFlowInsights := { topOutflows := [], topInflows := [], concentrationRisk := false },
        transactionVolumeAnalysis :=
          { meanVolumeSOL := 0, stdDevVolumeSOL := 0, highVolatility := false } } }

/-- The retry loop of `getRecentTransactions` (`transactions.js`, lines
38-116).  One whole iteration of the `try` body — HTTP fetch, per-transaction
parsing and the economic-insight computation — is abstracted as
`attemptResult`, which yields `some` result when the attempt succeeds and
`none` when anything in the body throws (including the 429 rate-limit path,
which sleeps the same backoff schedule).  `fuel` is the number of retries
still allowed (`maxRetries - attempt`); the returned list records the
backoff delays slept, in order. -/
def fetchAttempts (attemptResult : Nat → Option TxData) :
    Nat → Nat → List Nat → TxData × List Nat
  | fuel, attempt, delays =>
    match attemptResult attempt with
    | some r => (r, delays.reverse)
    | none =>
      match fuel with
      | 0 => (createFallback, delays.reverse)
      | f + 1 => fetchAttempts attemptResult f (attempt + 1) (retryDelays.getD attempt 0 :: delays)

/-- Embedding of `getRecentTransactions` (`transactions.js`, lines 25-120)
for a fresh cache: a missing `HELIUS_API_KEY` throws to the caller
(`Except.error`); otherwise the bounded retry loop runs with `maxRetries =
5` and never raises.  The second component of the payload is the list of
backoff delays slept. -/
def getRecentTransactions (apiKeyPresent : Bool) (attemptResult : Nat → Option TxData) :
    Except String (TxData × List Nat) :=
  if apiKeyPresent then Except.ok (fetchAttempts attemptResult 5 0 [])
  else Except.error "HELIUS_API_KEY not set in .env"

/-! ## Call graph builder (`src/unnamed/part_005`, `reconstructCallGraph`) -/

/-- JS `Set.add`: append the element unless already present (insertion
order preserved, as `Array.from` of a JS `Set` does). -/
def addNode (ns : List String) (x : String) : List String :=
  if x ∈ ns then ns else ns ++ [x]

/-- One instruction step of the call-graph loop: with at least two accounts,
add both endpoints to the node set and push the edge
`accounts[0] -> accounts[1]` labeled with the owning transaction's type. -/
def graphStep (txType : String) (st : List String × List CallEdge) (ix : Instruction) :
    List String × List CallEdge :=
  if 2 ≤ ix.accounts.length then
    let f := ix.accounts.getD 0 ""
    let t := ix.accounts.getD 1 ""
    (addNode (addNode st.1 f) t,
     st.2 ++ [{ src := f, dst := t, action := txType, count := 1 }])
  else st

/-- One transaction step of the call-graph loop. -/
def graphTx (st : List String × List CallEdge) (tx : Tx) : List String × List CallEdge :=
  tx.instructions.foldl (graphStep tx.txType) st

/-- Embedding of `reconstructCallGraph` (`src/unnamed/part_005`, lines
10-44): starting from the node set `{analysis.insights.address}` and no
edges, fold the transaction list; the validation failure
(`!analysis?.insights || !transactions?.transactions`) is the `none` branch,
which like the JS `catch` returns the empty graph. -/
def reconstructCallGraph (analysis : Option Analysis) (transactions : Option TxData) :
    CallGraph :=
  match analysis, transactions with
  | some a, some t =>
    let st := t.transactions.foldl graphTx ([a.insights.address], [])
    { nodes := st.1, edges := st.2 }
  | _, _ => { nodes := [], edges := [] }

/-- C1: with `analysis.insights` and `transactions.economicInsights` present,
`assessSafety` returns the base score 80 minus 20 for the hidden-mint signal,
minus 10 for exactly one authority insight, minus 15 for suspicious volume
exceeding 50% of total volume, minus 10 for more than 50 call-graph edges,
clamped to [0,100]; each triggered penalty appends exactly its one structured
risk entry, in rule order, and untriggered rules append nothing. -/
theorem assessSafety_penalties (a : Analysis) (auth : List AuthorityInsight) (t : TxData)
    (cg : CallGraph) :
    assessSafety (some a) auth (some t) cg =
      { safetyScore :=
          max 0 (min 100 ((80 : Int) - (if a.insights.hiddenMint then 20 else 0)
            - (if auth.length = 1 then 10 else 0)
            - (if t.economicInsights.suspiciousVolume >
                  t.economicInsights.totalVolumeSOL * (5 / 10) then 15 else 0)
            - (if cg.edges.length > 50 then 10 else 0))),
        risks :=
          (if a.insights.hiddenMint then [riskUncheckedMinting] else []) ++
          (if auth.length = 1 then [riskSingleAuthority] else []) ++
          (if t.economicInsights.suspiciousVolume >
              t.economicInsights.totalVolumeSOL * (5 / 10) then [riskSuspiciousVolume] else []) ++
          (if cg.edges.length > 50 then [riskComplexInteractions] else []) } := by
  cases hm : a.insights.hiddenMint <;>
    by_cases h2 : auth.length = 1 <;>
    by_cases h3 : t.economicInsights.suspiciousVolume > t.economicInsights.totalVolumeSOL * (5 / 10) <;>
    by_cases h4 : cg.edges.length > 50 <;>
    simp [assessSafety, hm, h2, h3, h4]

/-- C2: for all inputs, including every error-fallback path, the safety
score of `assessSafety`, the scam probability and laundering likelihood of
`inferBehavior`, and the risk likelihood of `predictRisk` all lie in
[0,100]. -/
theorem pipeline_scores_clamped
    (an : Option Analysis) (auth : List AuthorityInsight) (t : Option TxData) (cg : CallGraph)
    (an2 : Option Analysis) (t2 : Option TxData)
    (ai : Option (List AuthorityInsight)) (t3 : Option TxData) (sa : Option SafetyAssessment) :
    (0 ≤ (assessSafety an auth t cg).safetyScore ∧ (assessSafety an auth t cg).safetyScore ≤ 100) ∧
    (0 ≤ (inferBehavior an2 t2).scamProbability ∧ (inferBehavior an2 t2).scamProbability ≤ 100) ∧
    (0 ≤ (inferBehavior an2 t2).launderingLikelihood ∧
      (inferBehavior an2 t2).launderingLikelihood ≤ 100) ∧
    (0 ≤ (predictRisk ai t3 sa).riskLikelihood ∧ (predictRisk ai t3 sa).riskLikelihood ≤ 100) := by
  refine ⟨?_, ?_, ?_, ?_⟩
  · cases an <;> cases t <;> simp only [assessSafety] <;> (try split_ifs) <;> omega
  · cases an2 <;> cases t2 <;> simp only [inferBehavior] <;> (try split_ifs) <;> omega
  · cases an2 <;> cases t2 <;> simp only [inferBehavior] <;> (try split_ifs) <;> omega
  · cases ai <;> cases t3 <;> cases sa <;> simp only [predictRisk] <;> (try split_ifs) <;> omega

/-- C8: `predictRisk` starts from base 30, adds +20 for high economic
volatility, +15 for exactly one authority insight, +25 for a safety score
below 50, clamps the result to at most 100, and predicts \"High risk\" exactly
when the likelihood exceeds 70, else \"Low to moderate risk\". -/
theorem predictRisk_formula (ai : List AuthorityInsight) (t : TxData) (sa : SafetyAssessment) :
    (predictRisk (some ai) (some t) (some sa)).riskLikelihood =
      min 100 ((30 : Int)
        + (if t.economicInsights.transactionVolumeAnalysis.highVolatility then 20 else 0)
        + (if ai.length = 1 then 15 else 0)
        + (if sa.safetyScore < 50 then 25 else 0)) ∧
    (predictRisk (some ai) (some t) (some sa)).prediction =
      (if (predictRisk (some ai) (some t) (some sa)).riskLikelihood > 70 then "High risk"
       else "Low to moderate risk") := by
  cases hv : t.economicInsights.transactionVolumeAnalysis.highVolatility <;>
    by_cases h2 : ai.length = 1 <;>
    by_cases h3 : sa.safetyScore < 50 <;>
    simp [predictRisk, hv, h2, h3]

/-- C10: on every return path of `inferBehavior`, including the error
fallback, the values of the returned `programTypeConfidence` distribution
sum to exactly 100. -/
theorem programTypeConfidence_sums (an : Option Analysis) (t : Option TxData) :
    sumConfidence (inferBehavior an t).programTypeConfidence = 100 := by
  cases an <;> cases t <;> simp only [inferBehavior] <;> (try split_ifs) <;> decide

/-- C5: with the API key present, `getRecentTransactions` honors the retry
budget with backoff delays 1s,2s,4s,8s,16s: a data source failing the first
4 attempts and succeeding on the 5th yields the computed result (after
delays 1s,2s,4s,8s), and a data source failing all 6 attempts yields the
neutral empty fallback (empty transactions, all-zero economic insights)
without raising. -/
theorem getRecentTransactions_retryBudget (s1 s2 : Nat → Option TxData) (r : TxData)
    (h1 : ∀ i, i < 4 → s1 i = none) (h2 : s1 4 = some r)
    (h3 : ∀ i, i ≤ 5 → s2 i = none) :
    getRecentTransactions true s1 = Except.ok (r, [1000, 2000, 4000, 8000]) ∧
    getRecentTransactions true s2 = Except.ok (createFallback, [1000, 2000, 4000, 8000, 16000]) ∧
    createFallback.transactions = [] ∧
    createFallback.economicInsights.totalVolumeSOL = 0 ∧
    createFallback.economicInsights.transactionCount = 0 ∧
    createFallback.economicInsights.suspiciousVolume = 0 := by
  have e0 := h1 0 (by omega)
  have e1 := h1 1 (by omega)
  have e2 := h1 2 (by omega)
  have e3 := h1 3 (by omega)
  have f0 := h3 0 (by omega)
  have f1 := h3 1 (by omega)
  have f2 := h3 2 (by omega)
  have f3 := h3 3 (by omega)
  have f4 := h3 4 (by omega)
  have f5 := h3 5 (by omega)
  refine ⟨?_, ?_, rfl, rfl, rfl, rfl⟩
  · simp [getRecentTransactions, fetchAttempts, e0, e1, e2, e3, h2, retryDelays]
  · simp [getRecentTransactions, fetchAttempts, f0, f1, f2, f3, f4, f5, retryDelays]

def c5tx : TxData :=
  { transactions := [],
    economicInsights := { createFallback.economicInsights with transactionCount := 1 } }

def c5s1 : Nat → Option TxData := fun i => if i < 4 then none else some c5tx

def c5s2 : Nat → Option TxData := fun _ => none

/-- Witness for C5 at a concrete data source pair. -/
theorem getRecentTransactions_retryBudget_witness :
    getRecentTransactions true c5s1 = Except.ok (c5tx, [1000, 2000, 4000, 8000]) ∧
    getRecentTransactions true c5s2 = Except.ok (createFallback, [1000, 2000, 4000, 8000, 16000]) ∧
    createFallback.transactions = [] ∧
    createFallback.economicInsights.totalVolumeSOL = 0 ∧
    createFallback.economicInsights.transactionCount = 0 ∧
    createFallback.economicInsights.suspiciousVolume = 0 :=
  getRecentTransactions_retryBudget c5s1 c5s2 c5tx
    (fun i hi => by simp [c5s1, hi]) (by simp [c5s1]) (fun i _ => rfl)

/-! ## Binary-profiler claims -/

/-- Floor of a rational quotient of naturals is natural division. -/
lemma int_floor_natCast_div (n d : Nat) :
    Int.floor ((n : Rat) / d) = Int.ofNat (n / d) := by
  have h0 : (0 : Rat) ≤ (n : Rat) / d := by positivity
  have h2 : (0 : Int) ≤ Int.floor ((n : Rat) / d) := Int.floor_nonneg.2 h0
  calc Int.floor ((n : Rat) / d)
      = ((Int.floor ((n : Rat) / d)).toNat : Int) := (Int.toNat_of_nonneg h2).symm
    _ = ((Nat.floor ((n : Rat) / d) : Nat) : Int) := by rw [Int.floor_toNat]
    _ = Int.ofNat (n / d) := by rw [Nat.floor_div_eq_div]; rfl

/-- A byte pattern with a nonzero first byte never occurs in an all-zero
buffer. -/
lemma containsSeq_replicate_zero (a : Nat) (t : List Nat) (ha : a ≠ 0) :
    ∀ k, containsSeq (a :: t) (List.replicate k 0) = false := by
  intro k
  induction k with
  | zero => simp [containsSeq]
  | succ n ih => simp [List.replicate_succ, containsSeq, isPrefixSeq, ih, ha]

/-- All byte patterns `analyzeBinary` searches for: type markers, the
borsh/mint markers, and the three syscall signatures. -/
def knownMarkers : List (List Nat) :=
  [swapBytes, mintNFTBytes, borshBytes, mintBytes, sigInvoke, sigVerify, sigAlloc]

/-- The buffer contains none of the known marker byte patterns. -/
def markerFree (binary : List Nat) : Bool :=
  knownMarkers.all (fun m => !containsSeq m binary)

/-- A 4096-byte all-zero buffer: a concrete marker-free binary. -/
def c3buf : List Nat := List.replicate 4096 0

/-- The all-zero 4096-byte buffer is marker-free. -/
lemma markerFree_c3buf : markerFree c3buf = true := by
  have h1 := containsSeq_replicate_zero 115 [119, 97, 112] (by decide) 4096
  have h2 := containsSeq_replicate_zero 109 [105, 110, 116, 78, 70, 84] (by decide) 4096
  have h3 := containsSeq_replicate_zero 98 [111, 114, 115, 104] (by decide) 4096
  have h4 := containsSeq_replicate_zero 109 [105, 110, 116] (by decide) 4096
  have h5 := containsSeq_replicate_zero 1 [0, 0] (by decide) 4096
  have h6 := containsSeq_replicate_zero 2 [0, 0] (by decide) 4096
  have h7 := containsSeq_replicate_zero 3 [0, 0] (by decide) 4096
  show markerFree (List.replicate 4096 0) = true
  simp only [markerFree, knownMarkers, List.all_cons, List.all_nil, swapBytes, mintNFTBytes,
    borshBytes, mintBytes, sigInvoke, sigVerify, sigAlloc, h1, h2, h3, h4, h5, h6, h7]
  rfl

/-- C3: for every byte buffer and address, `analyzeBinary` estimates
`instructions = floor(len/8)`, `branches = floor(instructions * 0.1)` (which
equals `instructions / 10`), and `loops = floor(instructions * 0.05)` (which
equals `instructions / 20`); in particular a 4096-byte buffer free of known
marker bytes, analyzed at a non-governance address, yields instructions 512,
suspected type unknown, 51 branches and 25 loops. -/
theorem analyzeBinary_estimates (B : List Nat) (addr : String)
    (hlen : B.length = 4096) (hm : markerFree B = true) (haddr : addr ≠ govProgram) :
    ((analyzeBinary B addr).insights.instructions = 512 ∧
     (analyzeBinary B addr).insights.suspectedType = "unknown" ∧
     (analyzeBinary B addr).insights.controlFlow.branches = 51 ∧
     (analyzeBinary B addr).insights.controlFlow.loops = 25) ∧
    ∀ (C : List Nat) (addr2 : String),
      (analyzeBinary C addr2).insights.instructions = C.length / 8 ∧
      (analyzeBinary C addr2).insights.controlFlow.branches =
        Int.floor (((C.length / 8 : Nat) : Rat) * (1 / 10)) ∧
      (analyzeBinary C addr2).insights.controlFlow.branches = Int.ofNat (C.length / 8 / 10) ∧
      (analyzeBinary C addr2).insights.controlFlow.loops =
        Int.floor (((C.length / 8 : Nat) : Rat) * (5 / 100)) ∧
      (analyzeBinary C addr2).insights.controlFlow.loops = Int.ofNat (C.length / 8 / 20) := by
  have branches_eq : ∀ (C : List Nat) (addr2 : String),
      (analyzeBinary C addr2).insights.controlFlow.branches = Int.ofNat (C.length / 8 / 10) := by
    intro C addr2
    have h : ((C.length / 8 : Nat) : Rat) * (1 / 10) =
        ((C.length / 8 : Nat) : Rat) / ((10 : Nat) : Rat) := by push_cast; ring
    simp only [analyzeBinary]
    rw [h, int_floor_natCast_div]
  have loops_eq : ∀ (C : List Nat) (addr2 : String),
      (analyzeBinary C addr2).insights.controlFlow.loops = Int.ofNat (C.length / 8 / 20) := by
    intro C addr2
    have h : ((C.length / 8 : Nat) : Rat) * (5 / 100) =
        ((C.length / 8 : Nat) : Rat) / ((20 : Nat) : Rat) := by push_cast; ring
    simp only [analyzeBinary]
    rw [h, int_floor_natCast_div]
  refine ⟨⟨?_, ?_, ?_, ?_⟩, ?_⟩
  · simp [analyzeBinary, hlen]
  · have hswap : containsSeq swapBytes B = false := by
      have := hm
      simp [markerFree, knownMarkers] at this
      simpa using this.1
    have hnft : containsSeq mintNFTBytes B = false := by
      have := hm
      simp [markerFree, knownMarkers] at this
      simpa using this.2.1
    simp [analyzeBinary, inferProgramType, hswap, hnft, haddr]
  · rw [branches_eq B addr]
    simp [hlen]
  · rw [loops_eq B addr]
    simp [hlen]
  · intro C addr2
    exact ⟨by simp [analyzeBinary], rfl, branches_eq C addr2, rfl, loops_eq C addr2⟩

/-- Witness for C3 at the concrete all-zero 4096-byte buffer. -/
theorem analyzeBinary_estimates_witness :
    ((analyzeBinary c3buf "ProgX").insights.instructions = 512 ∧
     (analyzeBinary c3buf "ProgX").insights.suspectedType = "unknown" ∧
     (analyzeBinary c3buf "ProgX").insights.controlFlow.branches = 51 ∧
     (analyzeBinary c3buf "ProgX").insights.controlFlow.loops = 25) ∧
    ∀ (C : List Nat) (addr2 : String),
      (analyzeBinary C addr2).insights.instructions = C.length / 8 ∧
      (analyzeBinary C addr2).insights.controlFlow.branches =
        Int.floor (((C.length / 8 : Nat) : Rat) * (1 / 10)) ∧
      (analyzeBinary C addr2).insights.controlFlow.branches = Int.ofNat (C.length / 8 / 10) ∧
      (analyzeBinary C addr2).insights.controlFlow.loops =
        Int.floor (((C.length / 8 : Nat) : Rat) * (5 / 100)) ∧
      (analyzeBinary C addr2).insights.controlFlow.loops = Int.ofNat (C.length / 8 / 20) :=
  analyzeBinary_estimates c3buf "ProgX"
    (by rw [show c3buf = List.replicate 4096 0 from rfl, List.length_replicate])
    markerFree_c3buf (by decide)

/-! ## Transaction-classifier claims -/

/-- First-match evaluation of an ordered guard/result rule list (the shape
the spec describes the classification precedence in). -/
def firstMatch : List (Bool × String) → String → String
  | [], dflt => dflt
  | (c, r) :: rest, dflt => if c then r else firstMatch rest dflt

/-- Spec-side guard: governance program/instruction markers. -/
def isGovernanceTx (ixs : List Instruction) : Bool :=
  ixs.any (fun ix =>
    ix.programId == govProgram || ix.programId == smplProgram ||
    parsedTypeIs ix "createProposal" || parsedTypeIs ix "vote")

/-- Spec-side token rule: the sub-type (transfer/mint/burn) of the first
fungible-token-program instruction, `none` when there is no such instruction
or its parsed type is not one of the three. -/
def tokenSubType (ixs : List Instruction) : Option String :=
  match ixs.find? (fun ix => ix.programId == tokenProgram) with
  | some ix =>
    if parsedTypeIs ix "transfer" then some "transfer"
    else if parsedTypeIs ix "mint" then some "mint"
    else if parsedTypeIs ix "burn" then some "burn"
    else none
  | none => none

/-- Spec-side guard: recognized swap-venue program id or self program id. -/
def isSwapVenueTx (ixs : List Instruction) (addr : String) : Bool :=
  ixs.any (fun ix =>
    ix.programId == raydiumProgram || ix.programId == pumpFunProgram || ix.programId == addr)

/-- Spec-side guard: recognized NFT-program marker. -/
def isNftTx (ixs : List Instruction) : Bool :=
  ixs.any (fun ix => ix.programId == metaplexProgram || parsedTypeIs ix "mintNFT")

/-- Spec-side guard: self-program invocation. -/
def isSelfInvokeTx (ixs : List Instruction) (addr : String) : Bool :=
  ixs.any (fun ix => ix.programId == addr)

/-- The classification precedence stated by the spec, as a first-match rule
list, with the token rule amended to apply only when the first token-program
instruction's parsed type is transfer/mint/burn (otherwise evaluation falls
through to the swap rule). -/
def specClassifyTx (ixs : List Instruction) (addr : String) : String :=
  firstMatch
    [ (isGovernanceTx ixs, "governance"),
      (tokenSubType ixs == some "transfer", "transfer"),
      (tokenSubType ixs == some "mint", "mint"),
      (tokenSubType ixs == some "burn", "burn"),
      (isSwapVenueTx ixs addr, "swap"),
      (isNftTx ixs, "nft_mint"),
      (isSelfInvokeTx ixs addr, "custom") ] "unknown"

/-- C4 (amended): `inferTransactionType` classifies by the fixed first-match
precedence governance > token sub-type > swap > nft > custom > unknown,
where the token rule fires only when the first fungible-token-program
instruction's parsed type is transfer, mint or burn; a null parsed
transaction is classified unknown. -/
theorem inferTransactionType_precedence (ixs : List Instruction) (addr : String) :
    inferTransactionType (some ixs) addr = specClassifyTx ixs addr ∧
    inferTransactionType none addr = "unknown" := by
  refine ⟨?_, rfl⟩
  by_cases hg : ixs.any (fun ix =>
      ix.programId == govProgram || ix.programId == smplProgram ||
      parsedTypeIs ix "createProposal" || parsedTypeIs ix "vote") = true
  · simp [inferTransactionType, specClassifyTx, firstMatch, isGovernanceTx, hg]
  · have hg' : isGovernanceTx ixs = false := by
      simpa [isGovernanceTx] using hg
    cases hf : ixs.find? (fun ix => ix.programId == tokenProgram) with
    | some tokIx =>
      have hmem : tokIx ∈ ixs := List.mem_of_find?_eq_some hf
      have hpred := List.find?_some hf
      have hany : ixs.any (fun ix => ix.programId == tokenProgram) = true :=
        List.any_eq_true.2 ⟨tokIx, hmem, hpred⟩
      simp only [inferTransactionType, specClassifyTx, firstMatch, isGovernanceTx, hg', hany,
        hf, tokenSubType, if_true, if_false, Bool.false_eq_true]
      by_cases ht : parsedTypeIs tokIx "transfer" = true
      · simp [ht]
      · by_cases hm : parsedTypeIs tokIx "mint" = true
        · simp [ht, hm]
        · by_cases hb : parsedTypeIs tokIx "burn" = true
          · simp [ht, hm, hb]
          · simp [ht, hm, hb, isSwapVenueTx, isNftTx, isSelfInvokeTx]
    | none =>
      have hany : ixs.any (fun ix => ix.programId == tokenProgram) = false := by
        rw [List.any_eq_false]
        intro ix hix
        have := List.find?_eq_none.1 hf ix hix
        simpa using this
      simp [inferTransactionType, specClassifyTx, firstMatch, isGovernanceTx, hg', hany, hf,
        tokenSubType, isSwapVenueTx, isNftTx, isSelfInvokeTx]

def tokApproveIx : Instruction :=
  { programId := tokenProgram, accounts := [],
    parsed := some { ptype := "approve",
                     info := { source := none, destination := none, amount := 0,
                               mint := none, mintAuthority := none } } }

def raydiumIx : Instruction :=
  { programId := raydiumProgram, accounts := [], parsed := none }

/-- Counterexample to C4 as stated: a transaction holding a
fungible-token-program instruction (parsed type `approve`) and a swap-venue
instruction is classified `swap`, not a token sub-type. -/
theorem inferTransactionType_token_swap_counterexample :
    ([tokApproveIx, raydiumIx].any (fun ix => ix.programId == tokenProgram) = true) ∧
    ([tokApproveIx, raydiumIx].any (fun ix => ix.programId == raydiumProgram) = true) ∧
    inferTransactionType (some [tokApproveIx, raydiumIx]) "Prog111" = "swap" ∧
    inferTransactionType (some [tokApproveIx, raydiumIx]) "Prog111" ≠ "transfer" ∧
    inferTransactionType (some [tokApproveIx, raydiumIx]) "Prog111" ≠ "mint" ∧
    inferTransactionType (some [tokApproveIx, raydiumIx]) "Prog111" ≠ "burn" := by
  decide

/-! ## Call-graph claims -/

/-- The edge the call-graph loop pushes for one instruction, when it has at
least two accounts. -/
def mkEdge (txType : String) (ix : Instruction) : Option CallEdge :=
  if 2 ≤ ix.accounts.length then
    some { src := ix.accounts.getD 0 "", dst := ix.accounts.getD 1 "",
           action := txType, count := 1 }
  else none

/-- Edges contributed by a single transaction, in instruction order. -/
def txEdges (tx : Tx) : List CallEdge :=
  tx.instructions.filterMap (mkEdge tx.txType)

/-- Edges contributed by a transaction list, in push order. -/
def edgesList (txs : List Tx) : List CallEdge :=
  txs.flatMap txEdges

/-- The node-set effect of one instruction of the call-graph loop. -/
def nodeStep (ns : List String) (ix : Instruction) : List String :=
  if 2 ≤ ix.accounts.length then
    addNode (addNode ns (ix.accounts.getD 0 "")) (ix.accounts.getD 1 "")
  else ns

/-- The node-set effect of one transaction of the call-graph loop. -/
def nodesTx (ns : List String) (tx : Tx) : List String :=
  tx.instructions.foldl nodeStep ns

/-- The endpoints an instruction contributes to the node set. -/
def ixNodes (ix : Instruction) : List String :=
  if 2 ≤ ix.accounts.length then [ix.accounts.getD 0 "", ix.accounts.getD 1 ""] else []

/-- The endpoints a transaction contributes to the node set. -/
def txNodes (tx : Tx) : List String :=
  tx.instructions.flatMap ixNodes

/-- The endpoints a transaction list contributes to the node set. -/
def nodesList (txs : List Tx) : List String :=
  txs.flatMap txNodes

/-- The instruction fold of the call-graph loop splits into its node and
edge components. -/
lemma foldl_graphStep (ty : String) (ixs : List Instruction) :
    ∀ ns es, ixs.foldl (graphStep ty) (ns, es) =
      (ixs.foldl nodeStep ns, es ++ ixs.filterMap (mkEdge ty)) := by
  induction ixs with
  | nil => intro ns es; simp
  | cons ix rest ih =>
    intro ns es
    simp only [List.foldl_cons, List.filterMap_cons]
    by_cases h : 2 ≤ ix.accounts.length
    · simp only [graphStep, nodeStep, mkEdge, if_pos h, ih]
      simp
    · simp only [graphStep, nodeStep, mkEdge, if_neg h, ih]

/-- The transaction fold of the call-graph loop splits into its node and
edge components. -/
lemma foldl_graphTx (txs : List Tx) :
    ∀ ns es, txs.foldl graphTx (ns, es) = (txs.foldl nodesTx ns, es ++ edgesList txs) := by
  induction txs with
  | nil => intro ns es; simp [edgesList]
  | cons tx rest ih =>
    intro ns es
    simp only [List.foldl_cons, graphTx, edgesList, List.flatMap_cons]
    rw [foldl_graphStep, ih]
    simp [nodesTx, txEdges, edgesList]

/-- Closed form of `reconstructCallGraph` on well-formed input. -/
lemma reconstructCallGraph_eq (a : Analysis) (t : TxData) :
    reconstructCallGraph (some a) (some t) =
      { nodes := t.transactions.foldl nodesTx [a.insights.address],
        edges := edgesList t.transactions } := by
  simp only [reconstructCallGraph]
  rw [foldl_graphTx]
  simp

/-- Membership after a JS `Set.add`. -/
lemma mem_addNode (x y : String) (ns : List String) : x ∈ addNode ns y ↔ x ∈ ns ∨ x = y := by
  by_cases h : y ∈ ns
  · simp only [addNode, if_pos h]
    constructor
    · exact Or.inl
    · rintro (hx | rfl)
      · exact hx
      · exact h
  · simp [addNode, if_neg h]

/-- Membership in the node fold over instructions. -/
lemma mem_foldl_nodeStep (ixs : List Instruction) :
    ∀ ns x, x ∈ ixs.foldl nodeStep ns ↔ x ∈ ns ∨ x ∈ ixs.flatMap ixNodes := by
  induction ixs with
  | nil => intro ns x; simp
  | cons ix rest ih =>
    intro ns x
    simp only [List.foldl_cons, List.flatMap_cons, List.mem_append]
    rw [ih]
    by_cases h : 2 ≤ ix.accounts.length
    · simp only [nodeStep, ixNodes, if_pos h, mem_addNode, List.mem_cons, List.mem_singleton,
        List.not_mem_nil]
      tauto
    · simp only [nodeStep, ixNodes, if_neg h, List.not_mem_nil, false_or]

/-- Membership in the node fold over transactions. -/
lemma mem_foldl_nodesTx (txs : List Tx) :
    ∀ ns x, x ∈ txs.foldl nodesTx ns ↔ x ∈ ns ∨ x ∈ nodesList txs := by
  induction txs with
  | nil => intro ns x; simp [nodesList]
  | cons tx rest ih =>
    intro ns x
    simp only [List.foldl_cons, nodesList, List.flatMap_cons, List.mem_append]
    rw [ih, nodesTx, mem_foldl_nodeStep]
    simp only [nodesList, txNodes]
    tauto

/-- C6: `reconstructCallGraph` is additive: on the concatenation `T1 ++ T2`
the edge multiset is the sum of the edge multisets of the graphs of `T1` and
`T2`, and the node set is the union of their node sets. -/
theorem reconstructCallGraph_additive (a : Analysis) (e e1 e2 : EconomicInsights)
    (t1 t2 : List Tx) :
    ((reconstructCallGraph (some a)
        (some { transactions := t1 ++ t2, economicInsights := e })).edges : Multiset CallEdge) =
      ((reconstructCallGraph (some a)
          (some { transactions := t1, economicInsights := e1 })).edges : Multiset CallEdge) +
      ((reconstructCallGraph (some a)
          (some { transactions := t2, economicInsights := e2 })).edges : Multiset CallEdge) ∧
    ∀ x, x ∈ (reconstructCallGraph (some a)
        (some { transactions := t1 ++ t2, economicInsights := e })).nodes ↔
      (x ∈ (reconstructCallGraph (some a)
          (some { transactions := t1, economicInsights := e1 })).nodes ∨
       x ∈ (reconstructCallGraph (some a)
          (some { transactions := t2, economicInsights := e2 })).nodes) := by
  rw [reconstructCallGraph_eq, reconstructCallGraph_eq, reconstructCallGraph_eq]
  constructor
  · simp [edgesList]
  · intro x
    rw [mem_foldl_nodesTx, mem_foldl_nodesTx, mem_foldl_nodesTx]
    simp only [nodesList, List.flatMap_append, List.mem_append]
    tauto

/-- C9 (amended): on every well-formed input the analyzed program address is
a node of the returned call graph; on malformed input the function returns
the empty graph instead. -/
theorem reconstructCallGraph_root_mem (a : Analysis) (t : TxData) :
    a.insights.address ∈ (reconstructCallGraph (some a) (some t)).nodes := by
  rw [reconstructCallGraph_eq]
  exact (mem_foldl_nodesTx t.transactions [a.insights.address] a.insights.address).2
    (Or.inl (by simp))

/-- A concrete binary-analysis value for the C9 counterexample. -/
def ceInsights : Insights :=
  { instructions := 0, syscalls := [], suspectedType := "unknown", reentrancyRisk := "Low",
    controlFlow := { branches := 0, loops := 0 }, usesBorsh := false, hiddenMint := false,
    authorityHolders := [], address := "ProgRoot1111111111111111111111111111111111" }

/-- A concrete analysis wrapper for the C9 counterexample. -/
def ceAnalysis : Analysis := { insights := ceInsights }

/-- Counterexample to C9 as stated: with malformed transaction input the
returned graph is empty and does not contain the analyzed address. -/
theorem reconstructCallGraph_root_counterexample :
    reconstructCallGraph (some ceAnalysis) none = { nodes := [], edges := [] } ∧
    ceAnalysis.insights.address ∉ (reconstructCallGraph (some ceAnalysis) none).nodes := by
  refine ⟨rfl, ?_⟩
  simp [reconstructCallGraph]

/-! ## Token-flow claims -/

/-- Folding the amount sum from an arbitrary start. -/
lemma sumAmounts_foldl (l : List Flow) :
    ∀ a : Rat, l.foldl (fun s f => s + f.amount) a = a + sumAmounts l := by
  induction l with
  | nil => intro a; simp [sumAmounts]
  | cons f fs ih =>
    intro a
    simp only [List.foldl_cons, sumAmounts] at ih ⊢
    rw [ih, ih (0 + f.amount)]
    ring

/-- The amount sum distributes over append. -/
lemma sumAmounts_append (l1 l2 : List Flow) :
    sumAmounts (l1 ++ l2) = sumAmounts l1 + sumAmounts l2 := by
  simp only [sumAmounts, List.foldl_append]
  rw [sumAmounts_foldl]
  rfl

/-- Total amount of the raw flows carrying a given grouping key. -/
def keyAmount (flows : List Flow) (k : String) : Rat :=
  sumAmounts (flows.filter (fun f => flowKey f == k))

/-- Number of raw flows carrying a given grouping key. -/
def keyCount (flows : List Flow) (k : String) : Nat :=
  (flows.filter (fun f => flowKey f == k)).length

/-- Appending one flow adds its amount to exactly its own key. -/
lemma keyAmount_append1 (l : List Flow) (f : Flow) (k : String) :
    keyAmount (l ++ [f]) k =
      keyAmount l k + (if flowKey f = k then f.amount else 0) := by
  unfold keyAmount
  rw [List.filter_append, sumAmounts_append]
  by_cases h : flowKey f = k
  · simp [h, sumAmounts]
  · simp [h, sumAmounts]

/-- Appending one flow bumps the count of exactly its own key. -/
lemma keyCount_append1 (l : List Flow) (f : Flow) (k : String) :
    keyCount (l ++ [f]) k = keyCount l k + (if flowKey f = k then 1 else 0) := by
  unfold keyCount
  rw [List.filter_append, List.length_append]
  by_cases h : flowKey f = k
  · simp [h]
  · simp [h]

/-- The grouping contract between a list of raw flows and its aggregated
groups: every group carries the summed amount and the flow count of its key,
every raw flow is covered by a group of its key, and group keys are
pairwise distinct. -/
def groupsInv (processed acc : List Flow) : Prop :=
  (∀ g ∈ acc, g.amount = keyAmount processed (flowKey g) ∧
      g.txCount = keyCount processed (flowKey g)) ∧
  (∀ f ∈ processed, ∃ g ∈ acc, flowKey g = flowKey f) ∧
  (acc.map flowKey).Nodup

/-- Updating amount and count of a group leaves its key unchanged. -/
lemma flowKey_upd (g : Flow) (x : Rat) (n : Nat) :
    flowKey { g with amount := x, txCount := n } = flowKey g := rfl

/-- One `insertFlowGroup` step preserves the grouping contract. -/
lemma insertFlowGroup_inv (processed acc : List Flow) (f : Flow)
    (h : groupsInv processed acc) : groupsInv (processed ++ [f]) (insertFlowGroup acc f) := by
  obtain ⟨hAmt, hCov, hNodup⟩ := h
  by_cases hx : acc.any (fun g => flowKey g == flowKey f) = true
  · rw [insertFlowGroup, if_pos hx]
    refine ⟨?_, ?_, ?_⟩
    · intro g' hg'
      rw [List.mem_map] at hg'
      obtain ⟨g, hg, rfl⟩ := hg'
      by_cases hk : flowKey g = flowKey f
      · simp only [hk, beq_self_eq_true, if_pos]
        rw [flowKey_upd, keyAmount_append1, keyCount_append1, hk, if_pos rfl, if_pos rfl]
        obtain ⟨h1, h2⟩ := hAmt g hg
        constructor
        · rw [h1, hk]
        · rw [h2, hk]
      · have hk' : (flowKey g == flowKey f) = false := by
          simp [hk]
        simp only [hk', Bool.false_eq_true, if_false]
        rw [keyAmount_append1, keyCount_append1]
        obtain ⟨h1, h2⟩ := hAmt g hg
        rw [if_neg (fun he => hk he.symm), if_neg (fun he => hk he.symm)]
        exact ⟨by rw [h1]; ring, by rw [h2]; ring⟩
    · intro f' hf'
      rcases List.mem_append.1 hf' with hp | hf0
      · obtain ⟨g, hg, hkey⟩ := hCov f' hp
        refine ⟨(fun g => if flowKey g == flowKey f then
            { g with amount := g.amount + f.amount, txCount := g.txCount + 1 } else g) g,
          List.mem_map.2 ⟨g, hg, rfl⟩, ?_⟩
        by_cases hk : flowKey g = flowKey f
        · simp only [hk, beq_self_eq_true, if_pos]
          rw [flowKey_upd, hk, ← hkey, hk]
        · have hk' : (flowKey g == flowKey f) = false := by simp [hk]
          simp only [hk', Bool.false_eq_true, if_false]
          exact hkey
      · have hf0 : f' = f := by simpa using hf0
        subst hf0
        obtain ⟨g, hg, hkey⟩ := List.any_eq_true.1 hx
        have hkey' : flowKey g = flowKey f' := by simpa using hkey
        refine ⟨(fun g => if flowKey g == flowKey f' then
            { g with amount := g.amount + f'.amount, txCount := g.txCount + 1 } else g) g,
          List.mem_map.2 ⟨g, hg, rfl⟩, ?_⟩
        simp only [hkey', beq_self_eq_true, if_pos]
        rw [flowKey_upd, hkey']
    · rw [List.map_map]
      have : acc.map (flowKey ∘ (fun g => if flowKey g == flowKey f then
          { g with amount := g.amount + f.amount, txCount := g.txCount + 1 } else g)) =
          acc.map flowKey := by
        apply List.map_congr_left
        intro g _
        by_cases hk : flowKey g = flowKey f
        · simp only [Function.comp_apply, hk, beq_self_eq_true, if_pos]
          rw [flowKey_upd, hk]
        · have hk' : (flowKey g == flowKey f) = false := by simp [hk]
          simp [Function.comp_apply, hk]
      rw [this]
      exact hNodup
  · have hx' : ∀ g ∈ acc, flowKey g ≠ flowKey f := by
      intro g hg he
      exact hx (List.any_eq_true.2 ⟨g, hg, by simp [he]⟩)
    have hfresh : ∀ f' ∈ processed, flowKey f' ≠ flowKey f := by
      intro f' hp he
      obtain ⟨g, hg, hkey⟩ := hCov f' hp
      exact hx' g hg (hkey.trans he)
    have hfilter0 : processed.filter (fun f' => flowKey f' == flowKey f) = [] := by
      rw [List.filter_eq_nil_iff]
      intro f' hp
      simp [hfresh f' hp]
    rw [insertFlowGroup, if_neg hx]
    refine ⟨?_, ?_, ?_⟩
    · intro g' hg'
      rcases List.mem_append.1 hg' with hga | hg0
      · obtain ⟨h1, h2⟩ := hAmt g' hga
        rw [keyAmount_append1, keyCount_append1,
          if_neg (fun he => hx' g' hga he.symm), if_neg (fun he => hx' g' hga he.symm)]
        exact ⟨by rw [h1]; ring, by rw [h2]; ring⟩
      · have hg0 : g' = { f with txCount := 1 } := by simpa using hg0
        subst hg0
        have hkeyg : flowKey { f with txCount := 1 } = flowKey f := rfl
        rw [hkeyg, keyAmount_append1, keyCount_append1, if_pos rfl, if_pos rfl]
        have hA : keyAmount processed (flowKey f) = 0 := by
          unfold keyAmount
          rw [hfilter0]
          rfl
        have hC : keyCount processed (flowKey f) = 0 := by
          unfold keyCount
          rw [hfilter0]
          rfl
        rw [hA, hC]
        exact ⟨by ring, rfl⟩
    · intro f' hf'
      rcases List.mem_append.1 hf' with hp | hf0
      · obtain ⟨g, hg, hkey⟩ := hCov f' hp
        exact ⟨g, List.mem_append.2 (Or.inl hg), hkey⟩
      · have hf0 : f' = f := by simpa using hf0
        subst hf0
        exact ⟨{ f' with txCount := 1 }, List.mem_append.2 (Or.inr (by simp)), rfl⟩
    · rw [List.map_append]
      rw [List.nodup_append]
      refine ⟨hNodup, by simp, ?_⟩
      intro k hk
      simp only [List.map_cons, List.map_nil, List.mem_singleton]
      intro he
      obtain ⟨g, hg, hkey⟩ := List.mem_map.1 hk
      have : flowKey { f with txCount := 1 } = flowKey f := rfl
      rw [he, this] at hkey
      exact hx' g hg hkey

/-- The grouping fold preserves the grouping contract. -/
lemma groupFlows_inv (flows : List Flow) :
    ∀ processed acc, groupsInv processed acc →
      groupsInv (processed ++ flows) (flows.foldl insertFlowGroup acc) := by
  induction flows with
  | nil => intro p acc h; simpa using h
  | cons f fs ih =>
    intro p acc h
    simp only [List.foldl_cons]
    have := ih (p ++ [f]) (insertFlowGroup acc f) (insertFlowGroup_inv p acc f h)
    simpa [List.append_assoc] using this

/-- `groupFlows` satisfies the grouping contract. -/
lemma groupFlows_spec (flows : List Flow) : groupsInv flows (groupFlows flows) := by
  have := groupFlows_inv flows [] [] ⟨by simp, by simp, by simp⟩
  simpa [groupFlows] using this

/-- Descending insertion is a permutation. -/
lemma insSorted_perm (f : Flow) (l : List Flow) : (insSorted f l).Perm (f :: l) := by
  induction l with
  | nil => simp [insSorted]
  | cons g gs ih =>
    simp only [insSorted]
    split_ifs with h
    · exact (ih.cons g).trans (List.Perm.swap f g gs)
    · exact List.Perm.refl _

/-- Descending insertion preserves descending order. -/
lemma insSorted_pairwise (f : Flow) (l : List Flow)
    (h : l.Pairwise (fun a b => b.amount ≤ a.amount)) :
    (insSorted f l).Pairwise (fun a b => b.amount ≤ a.amount) := by
  induction l with
  | nil => simp [insSorted]
  | cons g gs ih =>
    rw [List.pairwise_cons] at h
    obtain ⟨hg, hgs⟩ := h
    simp only [insSorted]
    split_ifs with hle
    · rw [List.pairwise_cons]
      refine ⟨?_, ih hgs⟩
      intro b hb
      have hb' : b ∈ f :: gs := (insSorted_perm f gs).mem_iff.1 hb
      rcases List.mem_cons.1 hb' with rfl | hbgs
      · exact hle
      · exact hg b hbgs
    · rw [List.pairwise_cons]
      refine ⟨?_, List.Pairwise.cons hg hgs⟩
      intro b hb
      rcases List.mem_cons.1 hb with rfl | hbgs
      · exact le_of_lt (lt_of_not_le hle)
      · exact le_trans (hg b hbgs) (le_of_lt (lt_of_not_le hle))

/-- The sorting fold produces a descending permutation of its input. -/
lemma sortFoldAux (l : List Flow) :
    ∀ acc : List Flow, acc.Pairwise (fun a b => b.amount ≤ a.amount) →
      (l.foldl (fun a f => insSorted f a) acc).Pairwise (fun a b => b.amount ≤ a.amount) ∧
      (l.foldl (fun a f => insSorted f a) acc).Perm (acc ++ l) := by
  induction l with
  | nil => intro acc h; exact ⟨h, by simp⟩
  | cons f fs ih =>
    intro acc h
    simp only [List.foldl_cons]
    obtain ⟨hp, hperm⟩ := ih (insSorted f acc) (insSorted_pairwise f acc h)
    refine ⟨hp, hperm.trans ?_⟩
    have h1 : (insSorted f acc ++ fs).Perm ((f :: acc) ++ fs) :=
      (insSorted_perm f acc).append_right fs
    refine h1.trans ?_
    exact List.perm_middle.symm

/-- `sortFlowsDesc` sorts descending by amount. -/
lemma sortFlowsDesc_pairwise (l : List Flow) :
    (sortFlowsDesc l).Pairwise (fun a b => b.amount ≤ a.amount) :=
  (sortFoldAux l [] (List.Pairwise.nil)).1

/-- `sortFlowsDesc` permutes its input. -/
lemma sortFlowsDesc_perm (l : List Flow) : (sortFlowsDesc l).Perm l := by
  have := (sortFoldAux l [] (List.Pairwise.nil)).2
  simpa [sortFlowsDesc] using this

/-- In a descending list the head amount dominates every element. -/
lemma pairwise_head_max (h : Flow) (t : List Flow)
    (hp : (h :: t).Pairwise (fun a b => b.amount ≤ a.amount)) :
    ∀ x ∈ h :: t, x.amount ≤ h.amount := by
  intro x hx
  rcases List.mem_cons.1 hx with rfl | hxt
  · exact le_refl _
  · exact (List.pairwise_cons.1 hp).1 x hxt

/-- C7 (amended): token flows are grouped by the `(account, mint, flowType)`
key with amounts summed and per-group transaction counts accumulated, at
most the top 5 groups are kept in each direction sorted by amount
descending, and `concentrationRisk` is true exactly when a maximal outflow
group exceeds 80% of the summed amount of the kept top-5 outflows (the
truncated sum, not the total outflow volume). -/
theorem analyzeTokenFlows_spec (decimalsOf : String → Nat) (txs : List Tx) (addr : String) :
    (groupsInv (outflowsOf decimalsOf addr txs)
        (groupFlows (outflowsOf decimalsOf addr txs)) ∧
     groupsInv (inflowsOf decimalsOf addr txs)
        (groupFlows (inflowsOf decimalsOf addr txs))) ∧
    ((analyzeTokenFlows decimalsOf txs addr).topOutflows.length ≤ 5 ∧
     (analyzeTokenFlows decimalsOf txs addr).topInflows.length ≤ 5 ∧
     (analyzeTokenFlows decimalsOf txs addr).topOutflows.Pairwise
        (fun a b => b.amount ≤ a.amount) ∧
     (analyzeTokenFlows decimalsOf txs addr).topInflows.Pairwise
        (fun a b => b.amount ≤ a.amount)) ∧
    ((analyzeTokenFlows decimalsOf txs addr).concentrationRisk = true ↔
      ∃ g ∈ groupFlows (outflowsOf decimalsOf addr txs),
        (∀ g' ∈ groupFlows (outflowsOf decimalsOf addr txs), g'.amount ≤ g.amount) ∧
        g.amount >
          (8 : Rat) / 10 * sumAmounts ((analyzeTokenFlows decimalsOf txs addr).topOutflows)) := by
  have houts : (analyzeTokenFlows decimalsOf txs addr).topOutflows =
      (sortFlowsDesc (groupFlows (outflowsOf decimalsOf addr txs))).take 5 := rfl
  have hins : (analyzeTokenFlows decimalsOf txs addr).topInflows =
      (sortFlowsDesc (groupFlows (inflowsOf decimalsOf addr txs))).take 5 := rfl
  refine ⟨⟨groupFlows_spec _, groupFlows_spec _⟩, ⟨?_, ?_, ?_, ?_⟩, ?_⟩
  · rw [houts]; exact List.length_take_le 5 _
  · rw [hins]; exact List.length_take_le 5 _
  · rw [houts]
    exact (sortFlowsDesc_pairwise _).sublist (List.take_sublist 5 _)
  · rw [hins]
    exact (sortFlowsDesc_pairwise _).sublist (List.take_sublist 5 _)
  · cases hs : sortFlowsDesc (groupFlows (outflowsOf decimalsOf addr txs)) with
    | nil =>
      have hrisk : (analyzeTokenFlows decimalsOf txs addr).concentrationRisk = false := by
        show (match (sortFlowsDesc (groupFlows (outflowsOf decimalsOf addr txs))).take 5 with
          | [] => false
          | h :: _ =>
            decide (h.amount > (8 : Rat) / 10 *
              sumAmounts ((sortFlowsDesc (groupFlows (outflowsOf decimalsOf addr txs))).take 5)))
          = false
        rw [hs]
        rfl
      have hempty : groupFlows (outflowsOf decimalsOf addr txs) = [] := by
        have hp := sortFlowsDesc_perm (groupFlows (outflowsOf decimalsOf addr txs))
        rw [hs] at hp
        exact hp.symm.eq_nil
      rw [hrisk, hempty]
      simp
    | cons h t =>
      have hperm := sortFlowsDesc_perm (groupFlows (outflowsOf decimalsOf addr txs))
      rw [hs] at hperm
      have hpair := sortFlowsDesc_pairwise (groupFlows (outflowsOf decimalsOf addr txs))
      rw [hs] at hpair
      have hmax : ∀ x ∈ groupFlows (outflowsOf decimalsOf addr txs), x.amount ≤ h.amount := by
        intro x hx
        exact pairwise_head_max h t hpair x (hperm.symm.mem_iff.1 hx)
      have hmem : h ∈ groupFlows (outflowsOf decimalsOf addr txs) :=
        hperm.mem_iff.1 (List.mem_cons_self h t)
      have hrisk : (analyzeTokenFlows decimalsOf txs addr).concentrationRisk =
          decide (h.amount > (8 : Rat) / 10 *
            sumAmounts ((analyzeTokenFlows decimalsOf txs addr).topOutflows)) := by
        rw [houts]
        show (match (sortFlowsDesc (groupFlows (outflowsOf decimalsOf addr txs))).take 5 with
          | [] => false
          | h :: _ =>
            decide (h.amount > (8 : Rat) / 10 *
              sumAmounts ((sortFlowsDesc (groupFlows (outflowsOf decimalsOf addr txs))).take 5)))
          = decide (h.amount > (8 : Rat) / 10 *
              sumAmounts ((sortFlowsDesc (groupFlows (outflowsOf decimalsOf addr txs))).take 5))
        rw [hs]
        rfl
      rw [hrisk]
      constructor
      · intro hd
        have hgt := of_decide_eq_true hd
        exact ⟨h, hmem, hmax, hgt⟩
      · rintro ⟨g, hg, hgmax, hgt⟩
        apply decide_eq_true
        have h1 : g.amount ≤ h.amount := hmax g hg
        have h2 : h.amount ≤ g.amount := hgmax h hmem
        have : g.amount = h.amount := le_antisymm h1 h2
        rw [← this]
        exact hgt

/-- Decimals oracle for the C7 counterexample (all mints 9 decimals). -/
def c7dec : String → Nat := fun _ => 9

/-- A one-instruction custom transaction moving `v` SOL from the analyzed
program to `dest`, for the C7 counterexample. -/
def c7tx (dest : String) (v : Rat) : Tx :=
  { txType := "custom", details := true, volumeSOL := v,
    instructions := [{ programId := "XProg", accounts := ["ProgA", dest], parsed := none }] }

/-- Six custom transactions producing outflow groups of amounts
17,1,1,1,1,1. -/
def c7txs : List Tx :=
  [c7tx "D1" 17, c7tx "D2" 1, c7tx "D3" 1, c7tx "D4" 1, c7tx "D5" 1, c7tx "D6" 1]

/-- Counterexample to C7 as stated: with six outflow groups of amounts
17,1,1,1,1,1 the code flags concentration risk (17 > 0.8 * 21, the top-5
sum), yet the single largest outflow does not exceed 80% of the total
outflow volume (17 < 0.8 * 22). -/
theorem analyzeTokenFlows_concentration_counterexample :
    (analyzeTokenFlows c7dec c7txs "ProgA").concentrationRisk = true ∧
    (groupFlows (outflowsOf c7dec "ProgA" c7txs)).map (fun f => f.amount) =
      [17, 1, 1, 1, 1, 1] ∧
    ¬ ((17 : Rat) >
        (8 : Rat) / 10 * sumAmounts (groupFlows (outflowsOf c7dec "ProgA" c7txs))) := by
  refine ⟨?_, ?_, ?_⟩
  · simp [analyzeTokenFlows, aggregateFlows, outflowsOf, c7txs, c7tx, extractFlow,
      parsedTypeIs, jsTruthy, jsOrStr, mkOutflow, parsedAmount, getTokenDecimalsM,
      tokenProgram, c7dec, groupFlows, insertFlowGroup, flowKey, sortFlowsDesc, insSorted,
      sumAmounts]
    norm_num
  · simp [outflowsOf, c7txs, c7tx, extractFlow, parsedTypeIs, jsTruthy, jsOrStr, mkOutflow,
      parsedAmount, getTokenDecimalsM, tokenProgram, c7dec, groupFlows, insertFlowGroup,
      flowKey]
  · have h : sumAmounts (groupFlows (outflowsOf c7dec "ProgA" c7txs)) = 22 := by
      simp [outflowsOf, c7txs, c7tx, extractFlow, parsedTypeIs, jsTruthy, jsOrStr, mkOutflow,
        parsedAmount, getTokenDecimalsM, tokenProgram, c7dec, groupFlows, insertFlowGroup,
        flowKey, sumAmounts]
      norm_num
    rw [h]
    norm_num

end SolProof
